import Mathlib

/-!
Verification development for the compositor-interaction subsystem of
ueberzugpp: the Sway IPC socket client (`SwaySocket`) and the shared-memory
double-buffer surface (`SwayShm`).

The definitions are a shallow embedding of the C++ sources.  Pointers into
the mapped shared-memory region are modelled as byte offsets from the start
of the mapping; Wayland protocol objects (`wl_shm`, `wl_shm_pool`,
`wl_buffer`) are modelled by the data that identifies them (a buffer by the
byte offset it was created at); socket traffic is modelled as explicit
event traces.
-/

set_option linter.unusedVariables false

namespace Ueberzug

/-! ## Shared-memory double-buffer surface (`SwayShm`, shm.cpp) -/

/-- State of a `SwayShm` surface.  `width`, `height`, `stride`, `pool_size`
are the integer members; `shm_path` the generated shared-memory name; `fd`
the descriptor returned by `shm_open`; `shm` the compositor `wl_shm*`
handle (null ↦ `none`); `pool` the `wl_shm_pool*` handle; `buffers` the
`wl_buffer*` objects created so far, each represented by the byte offset
passed to `wl_shm_pool_create_buffer`. -/
structure SwayShm where
  width : Int
  height : Int
  stride : Int
  pool_size : Int
  shm_path : String
  fd : Int
  shm : Option Unit
  pool : Option Unit
  buffers : List Int
deriving DecidableEq, Repr

/-- `SwayShm::SwayShm(int width, int height)`: the member initialisers
`stride(width * 4)` and `pool_size(height * stride * 2)`.  The generated
uuid name and the descriptor returned by `shm_open` are parameters; the
Wayland handles start out null. -/
def mkSwayShm (width height : Int) (path : String) (fd : Int) : SwayShm :=
  { width := width
    height := height
    stride := width * 4
    pool_size := height * (width * 4) * 2
    shm_path := path
    fd := fd
    shm := none
    pool := none
    buffers := [] }

/-- Size of the region mapped by `create_shm_file`: `mmap` is called with
length `pool_size` (after `ftruncate(fd, pool_size)`). -/
def mapped_region_size (s : SwayShm) : Int :=
  s.pool_size

/-- `SwayShm::allocate_pool_buffers`: returns immediately when `shm` is
null; otherwise creates the pool (`wl_shm_create_pool(shm, fd, pool_size)`)
and two buffers at byte offsets `0` and `height * stride`
(`wl_shm_pool_create_buffer(pool, offset, width, height, stride, ARGB8888)`). -/
def allocate_pool_buffers (s : SwayShm) : SwayShm :=
  if s.shm = none then
    s
  else
    { s with
      pool := some ()
      buffers := s.buffers ++ [0, s.height * s.stride] }

/-- `SwayShm::get_data(uint32_t offset)`: returns `nullptr` when
`offset > 1`, otherwise the pointer `&pool_data[offset]`, i.e. the byte
offset `offset` into the mapping (`pool_data` is a `uint8_t*`). -/
def get_data (s : SwayShm) (offset : Nat) : Option Nat :=
  if offset > 1 then
    none
  else
    some offset

/-- One teardown step performed by `SwayShm::~SwayShm`. -/
inductive DtorAction where
  | unlink (path : String)
  | closeFd (fd : Int)
  | destroyBuffer (offset : Int)
  | destroyPool
  | destroyShm
deriving DecidableEq, Repr

/-- `SwayShm::~SwayShm`, statement by statement: `shm_unlink(shm_path)`,
`close(fd)`, `wl_buffer_destroy` on every element of `buffers`,
`wl_shm_pool_destroy(pool)` if `pool != nullptr`, and `wl_shm_destroy(shm)`
if `shm != nullptr`. -/
def swayShmDtor (s : SwayShm) : List DtorAction :=
  let t := [DtorAction.unlink s.shm_path]
  let t := t ++ [DtorAction.closeFd s.fd]
  let t := s.buffers.foldl (fun acc b => acc ++ [DtorAction.destroyBuffer b]) t
  let t := if s.pool.isSome then t ++ [DtorAction.destroyPool] else t
  if s.shm.isSome then t ++ [DtorAction.destroyShm] else t

theorem foldl_append_singleton (g : Int → DtorAction) :
    ∀ (l : List Int) (init : List DtorAction),
      l.foldl (fun acc b => acc ++ [g b]) init = init ++ l.map g := by
  intro l
  induction l with
  | nil => intro init; simp
  | cons b rest ih =>
      intro init
      simp [List.foldl_cons, ih]

/-- The destructor trace in closed form: the fixed order of the claim, with
the optional steps present exactly when their handle is. -/
theorem swayShmDtor_eq (s : SwayShm) :
    swayShmDtor s =
      [DtorAction.unlink s.shm_path, DtorAction.closeFd s.fd]
        ++ s.buffers.map DtorAction.destroyBuffer
        ++ (if s.pool.isSome then [DtorAction.destroyPool] else [])
        ++ (if s.shm.isSome then [DtorAction.destroyShm] else []) := by
  cases hp : s.pool <;> cases hs : s.shm <;>
    simp [swayShmDtor, foldl_append_singleton, hp, hs]

/-! ## Sway IPC socket client (`SwaySocket`, sway.cpp) -/

/-- `constexpr auto ipc_magic = std::string_view{"i3-ipc"}`, as its six
bytes. -/
def ipc_magic : List Nat := [105, 51, 45, 105, 112, 99]

/-- `constexpr auto ipc_header_size = ipc_magic.size() + 8`. -/
def ipc_header_size : Nat := ipc_magic.length + 8

/-- The packed `struct ipc_header`: six magic bytes, a `uint32_t` length
and a `uint32_t` message type. -/
structure ipc_header where
  magic : List Nat
  len : Nat
  type : Nat
deriving DecidableEq, Repr

/-- The four little-endian bytes of a `uint32_t`. -/
def le32 (n : Nat) : List Nat :=
  [n % 256, n / 256 % 256, n / 65536 % 256, n / 16777216 % 256]

/-- Read the first four bytes of a stream as a little-endian `uint32_t`. -/
def le32dec (bs : List Nat) : Nat :=
  bs.getD 0 0 + 256 * bs.getD 1 0 + 65536 * bs.getD 2 0 + 16777216 * bs.getD 3 0

/-- Wire bytes of a packed `ipc_header`: fields in declaration order with
no padding (`__attribute__((packed))`), integers little-endian. -/
def headerBytes (h : ipc_header) : List Nat :=
  h.magic ++ le32 h.len ++ le32 h.type

/-- The request header built at the top of `SwaySocket::ipc_message`:
`header.len = payload.size()` (a `size_t` narrowed to `uint32_t`),
`header.type = type`, and the magic literal copied in. -/
def mkRequestHeader (type : Nat) (payload : List Nat) : ipc_header :=
  { magic := ipc_magic
    len := payload.length % 4294967296
    type := type % 4294967296 }

/-- Reinterpreting `ipc_header_size` bytes read from the socket as a
packed `ipc_header`. -/
def decode_header (bs : List Nat) : ipc_header :=
  { magic := bs.take 6, len := le32dec (bs.drop 6), type := le32dec (bs.drop 10) }

/-- One blocking operation on the unix socket: a write of concrete bytes
or a read of a requested byte count. -/
inductive IOEvent where
  | wr (bytes : List Nat)
  | rd (count : Nat)
deriving DecidableEq, Repr

/-- `SwaySocket::ipc_message(type, payload)` as the trace of socket
operations it performs, given the byte stream `input` the socket will
deliver to reads: write the header, write the payload, read a header of
`ipc_header_size` bytes back, then read exactly the number of bytes that
len field of that response header reports. -/
def ipc_message_events (type : Nat) (payload : List Nat) (input : List Nat) :
    List IOEvent :=
  let header := mkRequestHeader type payload
  let evs := [IOEvent.wr (headerBytes header)]
  let evs := evs ++ [IOEvent.wr payload]
  let resp := decode_header (input.take ipc_header_size)
  let evs := evs ++ [IOEvent.rd ipc_header_size]
  evs ++ [IOEvent.rd resp.len]

theorem le32_roundtrip (n : Nat) (h : n < 4294967296) :
    le32dec (le32 n) = n := by
  simp only [le32, le32dec, List.getD, List.get?, Option.getD_some]
  omega

/-- `enum ipc_message_type` (sway.hpp): the two values this client sends. -/
inductive ipc_message_type where
  | IPC_COMMAND
  | IPC_GET_TREE
deriving DecidableEq, Repr

/-- One IPC round trip at the message level: its type and payload string. -/
abbrev Msg := ipc_message_type × String

/-- Message-level view of `ipc_message`: appends the request to the trace
and produces whatever parsed response the peer (`responder`) answers with. -/
def ipc_message_send {α : Type} (responder : ipc_message_type → String → α)
    (t : ipc_message_type) (payload : String) (tr : List Msg) : α × List Msg :=
  (responder t payload, tr ++ [(t, payload)])

/-- The `for_window` scoping clause that matches windows by `app_id`. -/
def scoping_clause (appid : String) : String :=
  "for_window [app_id=\"" ++ appid ++ "\"]"

/-- `SwaySocket::ipc_command(appid, command)`: formats
`for_window [app_id="{appid}"] {command}` and sends it as `IPC_COMMAND`. -/
def ipc_command_scoped {α : Type} (responder : ipc_message_type → String → α)
    (appid command : String) (tr : List Msg) : α × List Msg :=
  ipc_message_send responder ipc_message_type.IPC_COMMAND
    ("for_window [app_id=\"" ++ appid ++ "\"] " ++ command) tr

/-- `SwaySocket::ipc_command(command)`: sends `command` unwrapped as
`IPC_COMMAND`. -/
def ipc_command_raw {α : Type} (responder : ipc_message_type → String → α)
    (command : String) (tr : List Msg) : α × List Msg :=
  ipc_message_send responder ipc_message_type.IPC_COMMAND command tr

/-- `SwaySocket::disable_focus(appid)`: `std::ignore = ipc_command(...)`
on the formatted `no_focus [app_id="{appid}"]`. -/
def disable_focus {α : Type} (responder : ipc_message_type → String → α)
    (appid : String) (tr : List Msg) : List Msg :=
  (ipc_command_raw responder ("no_focus [app_id=\"" ++ appid ++ "\"]") tr).2

/-- `SwaySocket::enable_floating(appid)`: `std::ignore =
ipc_command(appid, "floating enable")`. -/
def enable_floating {α : Type} (responder : ipc_message_type → String → α)
    (appid : String) (tr : List Msg) : List Msg :=
  (ipc_command_scoped responder appid "floating enable" tr).2

/-- `SwaySocket::initial_setup(appid)`: `disable_focus` then
`enable_floating`. -/
def initial_setup {α : Type} (responder : ipc_message_type → String → α)
    (appid : String) (tr : List Msg) : List Msg :=
  enable_floating responder appid (disable_focus responder appid tr)

/-- `SwaySocket::move_window(appid, xcoord, ycoord)`: `std::ignore =
ipc_command(appid, "move absolute position {x} {y}")`. -/
def move_window {α : Type} (responder : ipc_message_type → String → α)
    (appid : String) (x y : Int) (tr : List Msg) : List Msg :=
  (ipc_command_scoped responder appid
    ("move absolute position " ++ toString x ++ " " ++ toString y) tr).2

/-- The `rect` object of a compositor tree node. -/
structure Rect where
  x : Int
  y : Int
  width : Int
  height : Int
deriving DecidableEq, Repr

/-- A well-formed node of the GET_TREE response document: a `focused`
boolean, a `rect`, and the `nodes` and `floating_nodes` child arrays. -/
inductive Node : Type where
  | mk : Bool → Rect → List Node → List Node → Node

def Node.focused : Node → Bool
  | .mk f _ _ _ => f

def Node.rect : Node → Rect
  | .mk _ r _ _ => r

def Node.nodes : Node → List Node
  | .mk _ _ ns _ => ns

def Node.floating_nodes : Node → List Node
  | .mk _ _ _ fs => fs

mutual

def Node.size : Node → Nat
  | .mk _ _ ns fs => 1 + sizeForest ns + sizeForest fs

def sizeForest : List Node → Nat
  | [] => 0
  | n :: rest => Node.size n + sizeForest rest

end

theorem sizeForest_append (a b : List Node) :
    sizeForest (a ++ b) = sizeForest a + sizeForest b := by
  induction a with
  | nil => simp [sizeForest]
  | cons n r ih => simp [sizeForest, ih]; omega

theorem sizeForest_reverse (a : List Node) :
    sizeForest a.reverse = sizeForest a := by
  induction a with
  | nil => rfl
  | cons n r ih => simp [sizeForest, List.reverse_cons, sizeForest_append, ih]; omega

mutual

def Node.countFocused : Node → Nat
  | .mk f _ ns fs => (if f then 1 else 0) + countForest ns + countForest fs

def countForest : List Node → Nat
  | [] => 0
  | n :: rest => Node.countFocused n + countForest rest

end

theorem countForest_append (a b : List Node) :
    countForest (a ++ b) = countForest a + countForest b := by
  induction a with
  | nil => simp [countForest]
  | cons n r ih => simp [countForest, ih]; omega

theorem countForest_reverse (a : List Node) :
    countForest a.reverse = countForest a := by
  induction a with
  | nil => rfl
  | cons n r ih => simp [countForest, List.reverse_cons, countForest_append, ih]; omega

/-- `Occurs x t`: the node value `x` occurs somewhere in the tree `t`,
reached through any mix of `nodes` and `floating_nodes` ancestry. -/
inductive Occurs : Node → Node → Prop where
  | here (t : Node) : Occurs t t
  | viaNodes {x c : Node} (t : Node) :
      c ∈ t.nodes → Occurs x c → Occurs x t
  | viaFloating {x c : Node} (t : Node) :
      c ∈ t.floating_nodes → Occurs x c → Occurs x t

/-- `x` occurs in one of the trees on the stack `l`. -/
def OccursForest (x : Node) (l : List Node) : Prop :=
  ∃ n ∈ l, Occurs x n

/-- The explicit-stack loop of `SwaySocket::current_window`: pop the top
node; if it is focused return it, otherwise push its `nodes` children and
then its `floating_nodes` children and continue.  Pushing a C++ range onto
a `std::stack` one element at a time leaves the last-pushed element on
top, hence the `reverse`. -/
def currentWindowLoop : List Node → Option Node
  | [] => none
  | top :: rest =>
    if top.focused then some top
    else currentWindowLoop ((top.nodes ++ top.floating_nodes).reverse ++ rest)
  termination_by l => sizeForest l
  decreasing_by
    cases n with
    | mk f r ns fs =>
      simp [sizeForest, sizeForest_append, sizeForest_reverse,
        Node.nodes, Node.floating_nodes, Node.size]
      omega

/-- `SwaySocket::current_window()`: runs the stack search on the parsed
GET_TREE response (here a parameter), starting from the root; returns the
null document (`none`) when the stack empties. -/
def current_window (tree : Node) : Option Node :=
  currentWindowLoop [tree]

/-- `struct WaylandWindow` as filled in by `get_window_info`. -/
structure WaylandWindow where
  width : Int
  height : Int
  x : Int
  y : Int
deriving DecidableEq, Repr

/-- An operation whose nlohmann-json precondition is violated: `const
operator[](key)` requires the document to be an object holding `key`;
calling it on the null document is an assertion failure / undefined
behavior, i.e. a crash, not a catchable error. -/
inductive JsonCrash where
  | nonObjectAccess
deriving DecidableEq, Repr

/-- `SwaySocket::get_window_info()`: `current_window()` followed by
`window["rect"]` and the four field reads.  When `current_window` returns
the null document, `window["rect"]` violates the `const operator[]`
precondition — modelled as the `nonObjectAccess` crash. -/
def get_window_info (tree : Node) : Except JsonCrash WaylandWindow :=
  match current_window tree with
  | some w =>
      Except.ok { width := w.rect.width, height := w.rect.height,
                  x := w.rect.x, y := w.rect.y }
  | none => Except.error JsonCrash.nonObjectAccess

/-- One observable construction step of `SwaySocket::SwaySocket`. -/
inductive CtorStep where
  | connect (path : String)
deriving DecidableEq, Repr

/-- `SwaySocket::SwaySocket()`: reads `SWAYSOCK` from the environment;
absence throws `runtime_error("SWAY NOT SUPPORTED")` before the
`UnixSocket` is constructed; otherwise the socket is connected to the
path. -/
def swaySocketCtor (env : String → Option String) :
    Except String (String × List CtorStep) :=
  match env "SWAYSOCK" with
  | none => Except.error "SWAY NOT SUPPORTED"
  | some p => Except.ok (p, [CtorStep.connect p])

/-- A 2×2 surface whose `wl_shm` handle has been supplied and whose pool and
buffers have been allocated; `stride = 8`, `height * stride = 16`. -/
def boundExample : SwayShm :=
  allocate_pool_buffers { mkSwayShm 2 2 "/cex" 3 with shm := some () }

/-- C6: for width, height > 0 (within `int` range, where the C++ arithmetic
is exact), construction computes `stride = width * 4` and the mapped region
size (= `pool_size = height * stride * 2`) equals `2 * height * width * 4`. -/
theorem C6_stride_pool_size (w h : Int) (path : String) (fd : Int)
    (hw : 0 < w) (hh : 0 < h)
    (hrange : h * (w * 4) * 2 ≤ 2147483647) :
    (mkSwayShm w h path fd).stride = w * 4 ∧
    mapped_region_size (mkSwayShm w h path fd) = 2 * h * w * 4 := by
  refine ⟨rfl, ?_⟩
  show h * (w * 4) * 2 = 2 * h * w * 4
  ring

/-- Witness for C6 at `width = 2`, `height = 3`. -/
theorem C6_stride_pool_size_witness :
    (0 : Int) < 2 ∧ (0 : Int) < 3 ∧ ((3 * (2 * 4) * 2 : Int) ≤ 2147483647) ∧
    ((mkSwayShm 2 3 "/u" 4).stride = 2 * 4 ∧
      mapped_region_size (mkSwayShm 2 3 "/u" 4) = 2 * 3 * 2 * 4) :=
  ⟨by decide, by decide, by decide,
    C6_stride_pool_size 2 3 "/u" 4 (by decide) (by decide) (by decide)⟩

/-- C9: calling `allocate_pool_buffers` while the compositor `wl_shm`
handle is still null is a no-op: the surface state is returned unchanged
(no pool handle, no new buffers). -/
theorem C9_allocate_pool_buffers_noop (s : SwayShm) (h : s.shm = none) :
    allocate_pool_buffers s = s := by
  simp [allocate_pool_buffers, h]

/-- Witness for C9 on a freshly constructed (never bound) surface. -/
theorem C9_allocate_pool_buffers_noop_witness :
    (mkSwayShm 2 2 "/w" 5).shm = none ∧
    allocate_pool_buffers (mkSwayShm 2 2 "/w" 5) = mkSwayShm 2 2 "/w" 5 :=
  ⟨rfl, C9_allocate_pool_buffers_noop (mkSwayShm 2 2 "/w" 5) rfl⟩

/-- C5: the destructor performs, in this fixed order: unlink the name,
close the descriptor, destroy every buffer object, destroy the pool if
obtained, destroy the `wl_shm` manager if owned; the optional steps occur
exactly when their handle exists, and on a surface never bound to a display
handle the trace is exactly unlink followed by close. -/
theorem C5_dtor_fixed_order (s : SwayShm) :
    swayShmDtor s =
      [DtorAction.unlink s.shm_path, DtorAction.closeFd s.fd]
        ++ s.buffers.map DtorAction.destroyBuffer
        ++ (if s.pool.isSome then [DtorAction.destroyPool] else [])
        ++ (if s.shm.isSome then [DtorAction.destroyShm] else []) ∧
    (DtorAction.destroyPool ∈ swayShmDtor s ↔ s.pool.isSome) ∧
    (DtorAction.destroyShm ∈ swayShmDtor s ↔ s.shm.isSome) ∧
    (∀ b : Int, DtorAction.destroyBuffer b ∈ swayShmDtor s ↔ b ∈ s.buffers) ∧
    (s.buffers = [] → s.pool = none → s.shm = none →
      swayShmDtor s = [DtorAction.unlink s.shm_path, DtorAction.closeFd s.fd]) := by
  refine ⟨swayShmDtor_eq s, ?_, ?_, ?_, ?_⟩
  · rw [swayShmDtor_eq]
    cases s.pool <;> cases s.shm <;> simp
  · rw [swayShmDtor_eq]
    cases s.pool <;> cases s.shm <;> simp
  · intro b
    rw [swayShmDtor_eq]
    cases s.pool <;> cases s.shm <;> simp
  · intro hb hp hs
    rw [swayShmDtor_eq, hb, hp, hs]
    simp

/-- Witness for C5 on a constructed-but-never-bound surface: the destructor
still unlinks the name and closes the descriptor. -/
theorem C5_dtor_fixed_order_witness :
    swayShmDtor (mkSwayShm 2 2 "/w5" 7) =
      [DtorAction.unlink "/w5", DtorAction.closeFd 7] :=
  (C5_dtor_fixed_order (mkSwayShm 2 2 "/w5" 7)).2.2.2.2 rfl rfl rfl

theorem decode_headerBytes (t : Nat) (p : List Nat) :
    decode_header (headerBytes (mkRequestHeader t p)) = mkRequestHeader t p := by
  have e1 : decode_header (headerBytes (mkRequestHeader t p)) =
      { magic := ipc_magic
        len := le32dec (le32 (p.length % 4294967296))
        type := le32dec (le32 (t % 4294967296)) } := rfl
  rw [e1, le32_roundtrip _ (Nat.mod_lt _ (by decide)),
    le32_roundtrip _ (Nat.mod_lt _ (by decide))]
  rfl

/-- C4: `ipc_message` writes a header whose `len` field is the exact byte
length of the payload and whose magic is the constant literal (both
faithfully recoverable from the wire bytes), and its socket trace is
exactly: write header, write payload — both before any read — then read a
fixed-size header and exactly `len` further bytes as that response header
reports. -/
theorem C4_ipc_message_framing (type : Nat) (payload : List Nat)
    (input : List Nat) (hlen : payload.length < 4294967296) :
    (mkRequestHeader type payload).len = payload.length ∧
    (mkRequestHeader type payload).magic = ipc_magic ∧
    decode_header (headerBytes (mkRequestHeader type payload)) =
      mkRequestHeader type payload ∧
    ipc_message_events type payload input =
      [IOEvent.wr (headerBytes (mkRequestHeader type payload)),
       IOEvent.wr payload,
       IOEvent.rd ipc_header_size,
       IOEvent.rd (decode_header (input.take ipc_header_size)).len] :=
  ⟨Nat.mod_eq_of_lt hlen, rfl, decode_headerBytes type payload, rfl⟩

/-- Witness for C4: a `GET_TREE`-typed request with a 3-byte payload and a
zero-length response. -/
theorem C4_ipc_message_framing_witness :
    ([10, 20, 30] : List Nat).length < 4294967296 ∧
    ((mkRequestHeader 4 [10, 20, 30]).len = ([10, 20, 30] : List Nat).length ∧
      (mkRequestHeader 4 [10, 20, 30]).magic = ipc_magic ∧
      decode_header (headerBytes (mkRequestHeader 4 [10, 20, 30])) =
        mkRequestHeader 4 [10, 20, 30] ∧
      ipc_message_events 4 [10, 20, 30] (List.replicate 14 0) =
        [IOEvent.wr (headerBytes (mkRequestHeader 4 [10, 20, 30])),
         IOEvent.wr [10, 20, 30],
         IOEvent.rd ipc_header_size,
         IOEvent.rd (decode_header ((List.replicate 14 0).take ipc_header_size)).len]) :=
  ⟨by decide, C4_ipc_message_framing 4 [10, 20, 30] (List.replicate 14 0) (by decide)⟩

/-- C7: `move_window(appid, x, y)` issues exactly one `IPC_COMMAND`
message, whose payload contains the `for_window` scoping clause for
`appid` and the decimal renderings of both coordinates. -/
theorem C7_move_window_payload {α : Type}
    (responder : ipc_message_type → String → α)
    (appid : String) (x y : Int) (tr : List Msg) :
    ∃ p : String,
      move_window responder appid x y tr =
        tr ++ [(ipc_message_type.IPC_COMMAND, p)] ∧
      (∃ a, p = scoping_clause appid ++ a) ∧
      (∃ a b, p = a ++ toString x ++ b) ∧
      (∃ a b, p = a ++ toString y ++ b) := by
  refine ⟨"for_window [app_id=\"" ++ appid ++ "\"] " ++
      ("move absolute position " ++ toString x ++ " " ++ toString y),
    rfl, ?_, ?_, ?_⟩
  · exact ⟨" " ++ ("move absolute position " ++ toString x ++ " " ++ toString y),
      by simp only [scoping_clause, String.append_assoc] <;> rfl⟩
  · exact ⟨"for_window [app_id=\"" ++ appid ++ "\"] " ++ "move absolute position ",
      " " ++ toString y, by simp only [String.append_assoc] <;> rfl⟩
  · exact ⟨"for_window [app_id=\"" ++ appid ++ "\"] " ++
        ("move absolute position " ++ toString x ++ " "), "",
      by simp only [String.append_assoc, String.append_empty] <;> rfl⟩

/-- C10: `initial_setup(appid)` issues exactly two `IPC_COMMAND` messages
in fixed order — the unwrapped `no_focus [app_id="{appid}"]`, then the
wrapped `for_window [app_id="{appid}"] floating enable` — and, being
universally quantified over the responses of the peer, its result never depends
on them (responses are discarded; a rejection cannot fail the call). -/
theorem C10_initial_setup_messages {α : Type}
    (responder : ipc_message_type → String → α)
    (appid : String) (tr : List Msg) :
    initial_setup responder appid tr =
      tr ++ [(ipc_message_type.IPC_COMMAND, "no_focus [app_id=\"" ++ appid ++ "\"]"),
             (ipc_message_type.IPC_COMMAND,
               scoping_clause appid ++ " " ++ "floating enable")] := by
  simp only [initial_setup, enable_floating, disable_focus, ipc_command_raw,
    ipc_command_scoped, ipc_message_send, scoping_clause, List.append_assoc,
    String.append_assoc] <;> rfl

/-- C8: when the `SWAYSOCK` environment variable is absent, construction
fails with the "not supported" error; the error result carries no
connection step, so no socket I/O was attempted. -/
theorem C8_missing_swaysock (env : String → Option String)
    (h : env "SWAYSOCK" = none) :
    swaySocketCtor env = Except.error "SWAY NOT SUPPORTED" := by
  simp [swaySocketCtor, h]

/-- Witness for C8 on the empty environment. -/
theorem C8_missing_swaysock_witness :
    (fun _ : String => (none : Option String)) "SWAYSOCK" = none ∧
    swaySocketCtor (fun _ => none) = Except.error "SWAY NOT SUPPORTED" :=
  ⟨rfl, C8_missing_swaysock (fun _ => none) rfl⟩

theorem focused_false_of_count_zero (t : Node) (h : t.countFocused = 0) :
    t.focused = false := by
  cases t with
  | mk f r ns fs =>
    cases f
    · rfl
    · simp [Node.countFocused] at h

theorem occursForest_of_children (t : Node) (rest : List Node) (x : Node)
    (h : OccursForest x ((t.nodes ++ t.floating_nodes).reverse ++ rest)) :
    OccursForest x (t :: rest) := by
  obtain ⟨n, hn, hocc⟩ := h
  rw [List.mem_append, List.mem_reverse, List.mem_append] at hn
  rcases hn with (hns | hfs) | hrest
  · exact ⟨t, List.mem_cons_self t rest, Occurs.viaNodes t hns hocc⟩
  · exact ⟨t, List.mem_cons_self t rest, Occurs.viaFloating t hfs hocc⟩
  · exact ⟨n, List.mem_cons_of_mem t hrest, hocc⟩

theorem loop_eq_none (N : Nat) :
    ∀ l : List Node, sizeForest l ≤ N → countForest l = 0 →
      currentWindowLoop l = none := by
  induction N with
  | zero =>
      intro l hs hc
      cases l with
      | nil => rw [currentWindowLoop]
      | cons t rest =>
          exfalso
          cases t with
          | mk f r ns fs => simp [sizeForest, Node.size] at hs
  | succ N ih =>
      intro l hs hc
      cases l with
      | nil => rw [currentWindowLoop]
      | cons t rest =>
          have hct : t.countFocused = 0 := by
            simp [countForest] at hc
            omega
          have hcr : countForest rest = 0 := by
            simp [countForest] at hc
            omega
          have hf : t.focused = false := focused_false_of_count_zero t hct
          rw [currentWindowLoop, hf]
          simp only [Bool.false_eq_true, if_false]
          apply ih
          · cases t with
            | mk f r ns fs =>
              simp only [sizeForest_append, sizeForest_reverse, Node.nodes,
                Node.floating_nodes]
              simp only [sizeForest, Node.size] at hs ⊢
              omega
          · cases t with
            | mk f r ns fs =>
              simp only [Node.focused] at hf
              subst hf
              simp only [Node.countFocused, Bool.false_eq_true, if_false] at hct
              simp only [countForest_append, countForest_reverse, Node.nodes,
                Node.floating_nodes]
              omega

theorem loop_finds (N : Nat) :
    ∀ l : List Node, sizeForest l ≤ N → 0 < countForest l →
      ∃ x, currentWindowLoop l = some x ∧ x.focused = true ∧
        OccursForest x l := by
  induction N with
  | zero =>
      intro l hs hc
      cases l with
      | nil => simp [countForest] at hc
      | cons t rest =>
          exfalso
          cases t with
          | mk f r ns fs => simp [sizeForest, Node.size] at hs
  | succ N ih =>
      intro l hs hc
      cases l with
      | nil => simp [countForest] at hc
      | cons t rest =>
          by_cases hf : t.focused = true
          · refine ⟨t, ?_, hf, ⟨t, List.mem_cons_self t rest, Occurs.here t⟩⟩
            rw [currentWindowLoop, hf]
            rfl
          · have hf' : t.focused = false := by
              cases hb : t.focused
              · rfl
              · exact absurd hb hf
            have hsz : sizeForest ((t.nodes ++ t.floating_nodes).reverse ++ rest) ≤ N := by
              cases t with
              | mk f r ns fs =>
                simp only [sizeForest_append, sizeForest_reverse, Node.nodes,
                  Node.floating_nodes]
                simp only [sizeForest, Node.size] at hs ⊢
                omega
            have hcnt : 0 < countForest ((t.nodes ++ t.floating_nodes).reverse ++ rest) := by
              cases t with
              | mk f r ns fs =>
                simp only [Node.focused] at hf'
                subst hf'
                simp only [countForest, Node.countFocused, Bool.false_eq_true, if_false] at hc
                simp only [countForest_append, countForest_reverse, Node.nodes,
                  Node.floating_nodes, countForest]
                omega
            obtain ⟨x, hloop, hxf, hocc⟩ :=
              ih ((t.nodes ++ t.floating_nodes).reverse ++ rest) hsz hcnt
            refine ⟨x, ?_, hxf, occursForest_of_children t rest x hocc⟩
            rw [currentWindowLoop, hf']
            simpa using hloop

/-- C3: on a tree in which exactly one node (at arbitrary depth, through
any mix of `nodes` and `floating_nodes` ancestry) is focused,
`current_window` returns a focused node occurring in the tree — hence that
node and its rectangle; on a tree with no focused node it returns the null
result. -/
theorem C3_current_window_search (tree : Node) :
    (tree.countFocused = 1 →
      ∃ x, current_window tree = some x ∧ x.focused = true ∧ Occurs x tree) ∧
    (tree.countFocused = 0 → current_window tree = none) := by
  constructor
  · intro h1
    obtain ⟨x, hl, hxf, hocc⟩ :=
      loop_finds (sizeForest [tree]) [tree] le_rfl
        (by simp [countForest, h1])
    obtain ⟨n, hn, ho⟩ := hocc
    have hn' : n = tree := by simpa using hn
    exact ⟨x, hl, hxf, hn' ▸ ho⟩
  · intro h0
    exact loop_eq_none (sizeForest [tree]) [tree] le_rfl
      (by simp [countForest, h0])

/-- A tree whose unique focused node sits two levels down, reachable only
through `floating_nodes` (the floating-traversal regression case). -/
def floatingOnlyTree : Node :=
  Node.mk false ⟨0, 0, 0, 0⟩ []
    [Node.mk false ⟨0, 0, 0, 0⟩ [] [Node.mk true ⟨1, 2, 3, 4⟩ [] []]]

/-- A tree with no focused node anywhere. -/
def noFocusTree : Node :=
  Node.mk false ⟨0, 0, 0, 0⟩ [] []

/-- Witness for C3: both branches at concrete trees, the focused one
nested only under `floating_nodes`. -/
theorem C3_current_window_search_witness :
    Node.countFocused floatingOnlyTree = 1 ∧
    (∃ x, current_window floatingOnlyTree = some x ∧ x.focused = true ∧
      Occurs x floatingOnlyTree) ∧
    Node.countFocused noFocusTree = 0 ∧
    current_window noFocusTree = none :=
  ⟨by simp [floatingOnlyTree, Node.countFocused, countForest],
    (C3_current_window_search floatingOnlyTree).1
      (by simp [floatingOnlyTree, Node.countFocused, countForest]),
    by simp [noFocusTree, Node.countFocused, countForest],
    (C3_current_window_search noFocusTree).2
      (by simp [noFocusTree, Node.countFocused, countForest])⟩

/-- C2 (code evaluation at the failing input): on a tree with no focused
node, `current_window` returns the null document and `get_window_info`
performs the invalid `operator[]` access on it — a crash, not a named
"no focused window" error (the code constructs no such error anywhere). -/
theorem C2_get_window_info_crash :
    get_window_info noFocusTree = Except.error JsonCrash.nonObjectAccess := by
  simp [get_window_info, current_window, noFocusTree, currentWindowLoop,
    Node.focused, Node.nodes, Node.floating_nodes]

/-- C1 (code evaluation at the failing input): on a 2×2 surface the two
buffer objects are created at byte offsets 0 and `height * stride = 16`,
but `get_data` returns byte offsets 0 and 1 — one byte apart, not
`index * height * stride` apart as the claim requires (`1 ≠ 1 * 16`). -/
theorem C1_get_data_eval :
    get_data boundExample 0 = some 0 ∧
    get_data boundExample 1 = some 1 ∧
    get_data boundExample 2 = none ∧
    boundExample.height * boundExample.stride = 16 ∧
    boundExample.buffers = [0, 16] ∧
    (1 : Nat) ≠ 1 * 16 := by
  refine ⟨rfl, rfl, rfl, rfl, ?_, by decide⟩
  show ([] : List Int) ++ [0, 2 * (2 * 4)] = [0, 16]
  decide

end Ueberzug
